import Mathlib

/-!
# hsync — verification of the reconciliation protocol

Shallow embedding of the hsync repository (Go): a server holding a data
directory of `.txt` documents behind a single `/sync` HTTP endpoint
(`src/cmd/server/main.go`, identical handler in the `server` package), and a
polling client (`src/internal/client/client.go`) keeping a local directory in
sync via a pull phase (`syncWithServer`) and a push phase
(`checkAndUpload` / `syncFile`), with a three-way merge
(`src/internal/merger/merger.go`) on the server.

Content of documents (Go `string`) is embedded as `List Char`.  Both the
server data directory and the client maps (`baseContents`, the local files)
are embedded as association lists from name to content; `lookupStore` models
a map read / `os.ReadFile` (with `none` for "no entry" / `IsNotExist`) and
`writeStore` models a map assignment / `os.WriteFile`.
-/

namespace Hsync

/-- Document content / names: Go strings, embedded as lists of characters. -/
abbrev Content := List Char

/-- A directory (or in-memory map): association list from name to content.
Models both the server data directory and the client-side maps. -/
abbrev Store := List (Content × Content)

/-- Map lookup; also models `os.ReadFile` on a directory (`none` is
`IsNotExist`). -/
def lookupStore : Store → Content → Option Content
  | [], _ => none
  | (k, v) :: rest, name => if k = name then some v else lookupStore rest name

/-- Map assignment; also models `os.WriteFile` into a directory. -/
def writeStore : Store → Content → Content → Store
  | [], name, c => [(name, c)]
  | (k, v) :: rest, name, c =>
      if k = name then (name, c) :: rest else (k, v) :: writeStore rest name c

theorem lookupStore_writeStore (s : Store) (k v k' : Content) :
    lookupStore (writeStore s k v) k' =
      if k = k' then some v else lookupStore s k' := by
  induction s with
  | nil => simp [writeStore, lookupStore]
  | cons hd tl ih =>
      obtain ⟨k0, v0⟩ := hd
      by_cases h0 : k0 = k
      · subst h0
        by_cases h : k0 = k' <;> simp [writeStore, lookupStore, h]
      · simp only [writeStore, if_neg h0, lookupStore]
        by_cases h : k0 = k'
        · have hk : ¬ k = k' := fun hh => h0 (h.trans hh.symm)
          simp [h, hk]
        · simp [h, ih]

/-- Modelled from the spec: `hsync/internal/utils.CalculateHash` is imported
by the client and server but the `utils` package source is missing from the
repository snapshot.  Per the spec (§3), a fingerprint is "a stable hash of
content, used to detect divergence cheaply"; we model it as a stable,
collision-free digest — the identity on content — which preserves exactly the
hash-comparison behaviour the callers rely on. -/
def CalculateHash (c : Content) : Content := c

/-! ## Merge primitive and `ThreeWayMerge` (src/internal/merger/merger.go)

The diff/patch primitive (`github.com/sergi/go-diff/diffmatchpatch`) is an
external dependency, absent from the repository.  The spec (§2, §4.2) treats
it as a black box: "given (base, other) produces an edit script; given
(edit script, target) applies it, yielding a best-effort result with no hard
failure — mismatched context is silently skipped". -/

/-- One operation of an edit script: replace an occurrence of `del` by
`ins`. -/
structure PatchOp where
  del : Content
  ins : Content

/-- Split `hay` around the first occurrence of `pat`: `some (pre, post)` with
`hay = pre ++ pat ++ post`, or `none` when `pat` does not occur. -/
def splitFirst (pat : Content) : Content → Option (Content × Content)
  | [] => if pat.isPrefixOf ([] : Content) then some ([], []) else none
  | h :: t =>
      if pat.isPrefixOf (h :: t) then some ([], (h :: t).drop pat.length)
      else (splitFirst pat t).map fun pr => (h :: pr.1, pr.2)

/-- Modelled from the spec: `dmp.PatchMake(a, b)` of the external
diffmatchpatch library — "compute an edit script from A to B" (§2).  When
`a = b` the script is empty; otherwise a single replace operation carries the
change, so that an empty base yields "insert `b` wholesale" (§4.2). -/
def patchMake (a b : Content) : List PatchOp :=
  if a = b then [] else [⟨a, b⟩]

/-- Modelled from the spec: applying one edit-script operation best-effort —
a fragment whose context is not found in the target is "silently skipped"
(§2, §4.2). -/
def applyOp (c : Content) (op : PatchOp) : Content :=
  match splitFirst op.del c with
  | some (pre, post) => pre ++ op.ins ++ post
  | none => c

/-- Modelled from the spec: `dmp.PatchApply(ops, c)` of the external
diffmatchpatch library — "apply an edit script to C, best-effort" (§2). -/
def patchApply (ops : List PatchOp) (c : Content) : Content :=
  ops.foldl applyOp c

/-- `merger.ThreeWayMerge(base, client, server)`
(src/internal/merger/merger.go:9-21): compute the patches from `base` to
`client` and apply them best-effort to `server`.  The Go function always
returns a `nil` error, so the embedding is total. -/
def ThreeWayMerge (base client server : Content) : Content :=
  patchApply (patchMake base client) server

/-- C5: merging with `base = latest` returns `current` unchanged. -/
theorem threeWayMerge_noop (base current : Content) :
    ThreeWayMerge base base current = current := by
  simp [ThreeWayMerge, patchMake, patchApply]

/-- C6: a first-ever push of a brand-new document reproduces it exactly:
`ThreeWayMerge [] latest [] = latest`. -/
theorem threeWayMerge_fresh_push (latest : Content) :
    ThreeWayMerge [] latest [] = latest := by
  by_cases h : ([] : Content) = latest
  · simp [ThreeWayMerge, patchMake, patchApply, ← h]
  · simp [ThreeWayMerge, patchMake, patchApply, h, applyOp, splitFirst,
      List.isPrefixOf]

/-! ## Server (src/cmd/server/main.go, handler `handleSync`; the `server`
package carries an identical handler) -/

/-- `protocol.SyncRequest` (src/internal/protocol/protocol.go). -/
structure SyncRequest where
  filename : Content
  base : Content
  latest : Content

/-- `filepath.Base` (Go standard library, Unix separators): `"."` for an
empty path, trailing slashes stripped, `"/"` when the path is all slashes,
otherwise everything after the last slash. -/
def baseName (p : Content) : Content :=
  if p = [] then ['.']
  else
    let r := p.reverse.dropWhile (fun c => c == '/')
    if r = [] then ['/']
    else (r.takeWhile (fun c => c != '/')).reverse

/-- The `".txt"` suffix enforced by the server. -/
def txtSuffix : Content := ['.', 't', 'x', 't']

/-- Outcome of the POST `/sync` branch of `handleSync`.  `invalidFilename`
and `onlyTxt` are both HTTP 400 Bad Request; `writeError` is HTTP 500. -/
inductive PostResult where
  | synced (merged : Content)
  | invalidFilename
  | onlyTxt
  | writeError
deriving DecidableEq

/-- Is the outcome an HTTP 400 Bad Request? -/
def PostResult.isBadRequest : PostResult → Bool
  | .invalidFilename => true
  | .onlyTxt => true
  | _ => false

/-- The POST branch of `handleSync` (src/cmd/server/main.go:103-154):
sanitize the filename with `filepath.Base`, reject `"."`, `"/"` and
non-`.txt` names with 400, read the server's current content (absent file is
the empty string), three-way merge, persist, reply with the merged content.
The store association list models the data directory: key `name` stands for
the path `filepath.Join(dataDir, name)`.  `writeOk` models whether
`os.WriteFile` succeeds; on failure the handler replies "Write Error"
without a `SyncResponse`. -/
def handleSyncPost (store : Store) (req : SyncRequest) (writeOk : Bool) :
    PostResult × Store :=
  let filename := baseName req.filename
  if filename = ['.'] ∨ filename = ['/'] then (.invalidFilename, store)
  else if ¬ txtSuffix.isSuffixOf filename then (.onlyTxt, store)
  else
    let serverContent := (lookupStore store filename).getD []
    let merged := ThreeWayMerge req.base req.latest serverContent
    if writeOk then (.synced merged, writeStore store filename merged)
    else (.writeError, store)

/-- An incoming `/sync` request: GET carries the `filename` query parameter
(empty when absent, selecting the list branch), POST carries a
`SyncRequest` body.  Both carry the `X-Sync-Key` header. -/
inductive Request where
  | get (syncKey : Content) (filename : Content)
  | post (syncKey : Content) (body : SyncRequest)

/-- The `X-Sync-Key` header of a request. -/
def requestKey : Request → Content
  | .get k _ => k
  | .post k _ => k

/-- A `/sync` response. -/
inductive Response where
  | unauthorized
  | fileList (entries : List (Content × Content))
  | fileContent (c : Content)
  | notFound
  | invalidFilename
  | post (r : PostResult)

/-- The GET list branch: every non-directory `.txt` entry of the data
directory with the hash of its content. -/
def listFingerprints (store : Store) : List (Content × Content) :=
  (store.filter fun kv => txtSuffix.isSuffixOf kv.1).map
    fun kv => (kv.1, CalculateHash kv.2)

/-- `handleSync` (src/cmd/server/main.go:42-157): the `X-Sync-Key` header is
compared with the configured key first, before the mutex and before any
access to the data directory; a mismatch is answered 401 Unauthorized.  Then
GET with a `filename` query serves one file (after the same basename
sanitizing), GET without it lists fingerprints, POST reconciles. -/
def handleSync (key : Content) (store : Store) (r : Request) (writeOk : Bool) :
    Response × Store :=
  if requestKey r ≠ key then (.unauthorized, store)
  else
    match r with
    | .get _ fn =>
        if fn ≠ [] then
          let cleanName := baseName fn
          if cleanName = ['.'] ∨ cleanName = ['/'] ∨
              ¬ txtSuffix.isSuffixOf cleanName then (.invalidFilename, store)
          else
            match lookupStore store cleanName with
            | none => (.notFound, store)
            | some c => (.fileContent c, store)
        else (.fileList (listFingerprints store), store)
    | .post _ body =>
        let (pr, s2) := handleSyncPost store body writeOk
        (.post pr, s2)

/-! ## Client (src/internal/client/client.go) -/

/-- Replica-side state: the in-memory `baseContents` ledger (client.go:48-50)
and the local sync directory (`cfg.DirPath`), both as name-to-content maps.
A `localFiles` key `name` stands for `filepath.Join(cfg.DirPath, name)`. -/
structure ClientState where
  baseContents : Store
  localFiles : Store

/-- One iteration of the pull loop of `syncWithServer`
(client.go:170-202) for document `filename`, where `serverHash` is the hash
the server listed for it and `serverContent` the content `downloadFile`
returns.  If the base entry is absent or its hash differs from the server's,
download, record `baseContents[filename] = content`, then write the local
file only when it did not exist or was clean (equal to the old base);
otherwise skip the write (local changes detected). -/
def pullOne (st : ClientState) (filename serverHash serverContent : Content) :
    ClientState :=
  let lb := lookupStore st.baseContents filename
  let needFetch :=
    match lb with
    | none => true
    | some localBaseContent => CalculateHash localBaseContent ≠ serverHash
  if needFetch then
    let content := serverContent
    let bases2 := writeStore st.baseContents filename content
    match lookupStore st.localFiles filename with
    | none =>
        { baseContents := bases2
          localFiles := writeStore st.localFiles filename content }
    | some currentBytes =>
        match lb with
        | some localBaseContent =>
            if currentBytes = localBaseContent then
              { baseContents := bases2
                localFiles := writeStore st.localFiles filename content }
            else
              { baseContents := bases2, localFiles := st.localFiles }
        | none => { baseContents := bases2, localFiles := st.localFiles }
  else st

/-- The response-handling tail of `syncFile` (client.go:294-313), given the
`synced` content decoded from the server's reply and the `current` content
that was uploaded: when `synced != current` overwrite the local file with
`synced` (the local `os.WriteFile` is modelled as succeeding), and in both
cases record `baseContents[filename] = synced`. -/
def syncFile (st : ClientState) (filename synced current : Content) :
    ClientState :=
  if synced ≠ current then
    { baseContents := writeStore st.baseContents filename synced
      localFiles := writeStore st.localFiles filename synced }
  else
    { baseContents := writeStore st.baseContents filename synced
      localFiles := st.localFiles }

/-- One iteration of the push loop of `checkAndUpload` (client.go:229-263)
for a `.txt` directory entry `filename`, composed with the server's POST
handler as the remote side of `syncFile`'s HTTP round trip.  Returns the new
client state, the new server store, and whether an upload request was issued.
Read the local content (an unreadable file is skipped); look up the base
(absent means the empty string); skip when content equals base; otherwise
upload and apply the server's reply (a non-200 reply leaves the client
unchanged). -/
def checkAndUploadOne (st : ClientState) (store : Store) (filename : Content)
    (writeOk : Bool) : ClientState × Store × Bool :=
  match lookupStore st.localFiles filename with
  | none => (st, store, false)
  | some currentContent =>
      let base := (lookupStore st.baseContents filename).getD []
      if currentContent = base then (st, store, false)
      else
        let (res, store2) := handleSyncPost store ⟨filename, base, currentContent⟩ writeOk
        match res with
        | .synced merged => (syncFile st filename merged currentContent, store2, true)
        | _ => (st, store2, true)

/-! ## Claims -/

/-- C1: the claim says a pull tick leaves both the local file and the
recorded base unchanged for a dirty document.  The code violates the second
half: `syncWithServer` records `baseContents[filename] = content` before the
clean/dirty check, so a dirty document (base `"a"`, local `"b"`) whose
server copy hashes differently (content `"c"`) keeps its local file (`"b"`)
but has its base silently replaced by the fetched server content (`"c"`),
contradicting the repository's own comment "If Local is dirty, DO NOT
update Base yet". -/
theorem pull_dirty_base_overwritten :
    lookupStore (pullOne ⟨[(['n'], ['a'])], [(['n'], ['b'])]⟩ ['n']
        (CalculateHash ['c']) ['c']).localFiles ['n'] = some ['b'] ∧
      lookupStore (pullOne ⟨[(['n'], ['a'])], [(['n'], ['b'])]⟩ ['n']
        (CalculateHash ['c']) ['c']).baseContents ['n'] = some ['c'] := by
  decide

/-- C2: a valid POST `/sync` request is answered with
`merged = ThreeWayMerge(base, latest, current)` where `current` is the
stored content (absent document read as the empty string), and `merged` is
persisted as the document's new stored content. -/
theorem handleSyncPost_merges_and_persists (store : Store) (req : SyncRequest)
    (h1 : baseName req.filename ≠ ['.']) (h2 : baseName req.filename ≠ ['/'])
    (h3 : txtSuffix.isSuffixOf (baseName req.filename) = true) :
    (handleSyncPost store req true).1 =
        .synced (ThreeWayMerge req.base req.latest
          ((lookupStore store (baseName req.filename)).getD [])) ∧
      lookupStore (handleSyncPost store req true).2 (baseName req.filename) =
        some (ThreeWayMerge req.base req.latest
          ((lookupStore store (baseName req.filename)).getD [])) := by
  simp [handleSyncPost, h1, h2, h3, lookupStore_writeStore]

theorem handleSyncPost_merges_and_persists_witness :
    (handleSyncPost [] ⟨['n', '.', 't', 'x', 't'], [], ['h', 'i']⟩ true).1 =
        .synced (ThreeWayMerge [] ['h', 'i']
          ((lookupStore []
            (baseName ['n', '.', 't', 'x', 't'])).getD [])) ∧
      lookupStore (handleSyncPost [] ⟨['n', '.', 't', 'x', 't'], [], ['h', 'i']⟩ true).2
          (baseName ['n', '.', 't', 'x', 't']) =
        some (ThreeWayMerge [] ['h', 'i']
          ((lookupStore []
            (baseName ['n', '.', 't', 'x', 't'])).getD [])) :=
  handleSyncPost_merges_and_persists [] ⟨['n', '.', 't', 'x', 't'], [], ['h', 'i']⟩
    (by decide) (by decide) (by decide)

/-- C3: applying the server's reply to a locally readable document sets the
recorded base to the merged content; the local file is rewritten exactly
when the merged content differs from the local content. -/
theorem syncFile_updates_base_and_file (st : ClientState)
    (filename current merged : Content)
    (h : lookupStore st.localFiles filename = some current) :
    lookupStore (syncFile st filename merged current).baseContents filename =
        some merged ∧
      (merged = current →
        (syncFile st filename merged current).localFiles = st.localFiles) ∧
      (merged ≠ current →
        lookupStore (syncFile st filename merged current).localFiles filename =
          some merged) := by
  by_cases hm : merged = current
  · simp [syncFile, hm, lookupStore_writeStore]
  · simp [syncFile, hm, lookupStore_writeStore]

theorem syncFile_updates_base_and_file_witness :
    lookupStore (syncFile ⟨[], [(['n'], ['a'])]⟩ ['n'] ['b'] ['a']).baseContents
        ['n'] = some ['b'] ∧
      (['b'] = ['a'] →
        (syncFile ⟨[], [(['n'], ['a'])]⟩ ['n'] ['b'] ['a']).localFiles =
          [(['n'], ['a'])]) ∧
      (['b'] ≠ ['a'] →
        lookupStore (syncFile ⟨[], [(['n'], ['a'])]⟩ ['n'] ['b'] ['a']).localFiles
          ['n'] = some ['b']) :=
  syncFile_updates_base_and_file ⟨[], [(['n'], ['a'])]⟩ ['n'] ['a'] ['b'] (by decide)

/-- C4: in the push phase, a locally readable document whose content equals
its recorded base (absent entry read as the empty string) issues no upload
request and leaves the client state and server store unchanged. -/
theorem checkAndUpload_clean_skips (st : ClientState) (store : Store)
    (filename : Content) (writeOk : Bool) (current : Content)
    (hread : lookupStore st.localFiles filename = some current)
    (hclean : current = (lookupStore st.baseContents filename).getD []) :
    checkAndUploadOne st store filename writeOk = (st, store, false) := by
  simp [checkAndUploadOne, hread, hclean]

theorem checkAndUpload_clean_skips_witness :
    checkAndUploadOne ⟨[(['n'], ['a'])], [(['n'], ['a'])]⟩ [] ['n'] true =
      (⟨[(['n'], ['a'])], [(['n'], ['a'])]⟩, [], false) :=
  checkAndUpload_clean_skips ⟨[(['n'], ['a'])], [(['n'], ['a'])]⟩ [] ['n'] true
    ['a'] (by decide) (by decide)

/-- C7: when persisting the merged content fails, the POST handler answers
"Write Error" and never reports a synced merged result. -/
theorem handleSyncPost_write_failure (store : Store) (req : SyncRequest)
    (h1 : baseName req.filename ≠ ['.']) (h2 : baseName req.filename ≠ ['/'])
    (h3 : txtSuffix.isSuffixOf (baseName req.filename) = true) :
    (handleSyncPost store req false).1 = .writeError ∧
      ∀ m, (handleSyncPost store req false).1 ≠ .synced m := by
  simp [handleSyncPost, h1, h2, h3]

theorem handleSyncPost_write_failure_witness :
    (handleSyncPost [] ⟨['n', '.', 't', 'x', 't'], [], ['h', 'i']⟩ false).1 =
        .writeError ∧
      ∀ m, (handleSyncPost [] ⟨['n', '.', 't', 'x', 't'], [], ['h', 'i']⟩ false).1 ≠
        .synced m :=
  handleSyncPost_write_failure [] ⟨['n', '.', 't', 'x', 't'], [], ['h', 'i']⟩
    (by decide) (by decide) (by decide)

/-- C8: any `/sync` request (list, fetch, or reconcile) whose `X-Sync-Key`
differs from the configured key is answered 401 Unauthorized, before any
access to the data directory, which is left unchanged. -/
theorem handleSync_auth_rejected (key : Content) (store : Store) (r : Request)
    (writeOk : Bool) (h : requestKey r ≠ key) :
    handleSync key store r writeOk = (.unauthorized, store) := by
  simp [handleSync, h]

theorem handleSync_auth_rejected_witness :
    handleSync ['k'] [] (.get ['w'] []) true = (.unauthorized, []) :=
  handleSync_auth_rejected ['k'] [] (.get ['w'] []) true (by decide)

/-- C9: a POST `/sync` request whose filename's basename is `"."` or `"/"`
or lacks the `.txt` suffix is answered 400 Bad Request with the store
untouched; moreover every write lands at the basename's entry of the data
directory (all other entries are preserved) and every read is confined to
that entry (the response depends on the store only through it). -/
theorem handleSyncPost_sanitizes (store : Store) (req : SyncRequest)
    (writeOk : Bool) :
    ((baseName req.filename = ['.'] ∨ baseName req.filename = ['/'] ∨
        ¬ txtSuffix.isSuffixOf (baseName req.filename)) →
      (handleSyncPost store req writeOk).1.isBadRequest = true ∧
        (handleSyncPost store req writeOk).2 = store) ∧
    (∀ name, name ≠ baseName req.filename →
      lookupStore (handleSyncPost store req writeOk).2 name =
        lookupStore store name) ∧
    (∀ store2,
      lookupStore store2 (baseName req.filename) =
          lookupStore store (baseName req.filename) →
      (handleSyncPost store2 req writeOk).1 =
        (handleSyncPost store req writeOk).1) := by
  refine ⟨?_, ?_, ?_⟩
  · intro h
    by_cases h1 : baseName req.filename = ['.'] ∨ baseName req.filename = ['/']
    · simp [handleSyncPost, h1, PostResult.isBadRequest]
    · have h2 : ¬ txtSuffix.isSuffixOf (baseName req.filename) := by
        rcases h with h | h | h
        · exact absurd (Or.inl h) h1
        · exact absurd (Or.inr h) h1
        · exact h
      simp [handleSyncPost, h1, h2, PostResult.isBadRequest]
  · intro name hn
    have hfn : baseName req.filename ≠ name := fun hh => hn hh.symm
    by_cases h1 : baseName req.filename = ['.'] ∨ baseName req.filename = ['/']
    · simp [handleSyncPost, h1]
    · by_cases h2 : txtSuffix.isSuffixOf (baseName req.filename) = true
      · cases writeOk with
        | false => simp [handleSyncPost, h1, h2]
        | true => simp [handleSyncPost, h1, h2, lookupStore_writeStore, hfn]
      · simp [handleSyncPost, h1, h2]
  · intro store2 hs
    by_cases h1 : baseName req.filename = ['.'] ∨ baseName req.filename = ['/']
    · simp [handleSyncPost, h1]
    · by_cases h2 : txtSuffix.isSuffixOf (baseName req.filename) = true
      · cases writeOk with
        | false => simp [handleSyncPost, h1, h2]
        | true => simp [handleSyncPost, h1, h2, hs]
      · simp [handleSyncPost, h1, h2]

theorem handleSyncPost_sanitizes_witness :
    (handleSyncPost [(['a', '.', 't', 'x', 't'], ['v'])] ⟨['x'], [], []⟩ true).1.isBadRequest
        = true ∧
      (handleSyncPost [(['a', '.', 't', 'x', 't'], ['v'])] ⟨['x'], [], []⟩ true).2 =
        [(['a', '.', 't', 'x', 't'], ['v'])] :=
  (handleSyncPost_sanitizes [(['a', '.', 't', 'x', 't'], ['v'])] ⟨['x'], [], []⟩
    true).1 (Or.inr (Or.inr (by decide)))

/-- C10: in the pull phase, a document with no recorded base entry whose
local file already exists is never overwritten with the fetched server
content — even when the local content equals the fetched content. -/
theorem pull_no_base_existing_file_not_overwritten (st : ClientState)
    (filename serverHash serverContent current : Content)
    (hbase : lookupStore st.baseContents filename = none)
    (hfile : lookupStore st.localFiles filename = some current) :
    (pullOne st filename serverHash serverContent).localFiles = st.localFiles := by
  simp [pullOne, hbase, hfile]

theorem pull_no_base_existing_file_not_overwritten_witness :
    (pullOne ⟨[], [(['n'], ['h'])]⟩ ['n'] (CalculateHash ['h']) ['h']).localFiles =
      [(['n'], ['h'])] :=
  pull_no_base_existing_file_not_overwritten ⟨[], [(['n'], ['h'])]⟩ ['n']
    (CalculateHash ['h']) ['h'] ['h'] (by decide) (by decide)

end Hsync
